import Mathlib

/-!
Shallow embedding of the `png` package of the pnguin repository: a PNG
chunk-stream parser (`chunks` / `Parse`), a chunk-type registry
(`getChunkType`), a header-field decoder (`parseHeader`) and the
tag-stripping re-encoder (`StripTags`).

Byte streams are modelled as `List Nat` (one `Nat` per byte).  Reading from
the `bufio.Reader` is modelled by explicit state passing: a read takes the
front of the list and returns the rest.  `io.ReadFull` semantics are
modelled by `readFull`: it yields the requested bytes when enough remain,
reports `eof` when the stream is empty (Go's `io.EOF`), and
`unexpectedEof` when some but not all requested bytes remain
(Go's `io.ErrUnexpectedEOF`).
-/

set_option autoImplicit false

namespace Png

/-- The fixed 8-byte PNG signature `89 50 4E 47 0D 0A 1A 0A` (`pngHeader`). -/
def pngHeader : List Nat := [137, 80, 78, 71, 13, 10, 26, 10]

def ctHdr : List Nat := [73, 72, 68, 82]
def ctPlte : List Nat := [80, 76, 84, 69]
def ctDat : List Nat := [73, 68, 65, 84]
def ctEnd : List Nat := [73, 69, 78, 68]
def ctBkgd : List Nat := [98, 75, 71, 68]
def ctChrm : List Nat := [99, 72, 82, 77]
def ctDSig : List Nat := [100, 83, 73, 71]
def ctExif : List Nat := [101, 88, 73, 102]
def ctGama : List Nat := [103, 65, 77, 65]
def ctHist : List Nat := [104, 73, 83, 84]
def ctIccp : List Nat := [105, 67, 67, 80]
def ctItxt : List Nat := [105, 84, 88, 116]
def ctPhys : List Nat := [112, 72, 89, 115]
def ctSbit : List Nat := [115, 66, 73, 84]
def ctSplt : List Nat := [115, 80, 76, 84]
def ctSrgb : List Nat := [115, 82, 71, 66]
def ctSter : List Nat := [115, 84, 69, 82]
def ctText : List Nat := [116, 69, 88, 116]
def ctTime : List Nat := [116, 73, 77, 69]
def ctTrns : List Nat := [116, 82, 78, 83]
def ctZtxt : List Nat := [122, 84, 88, 116]

/-- The Go `chunkType` enumeration: the classification of a chunk. -/
inductive chunkType : Type where
  | ChunkTypeUnknown
  | ChunkTypeHeader
  | ChunkTypePalette
  | ChunkTypeData
  | ChunkTypeEnd
  | ChunkTypeBkgdColor
  | ChunkTypeChromaticity
  | ChunkTypeDigiSignal
  | ChunkTypeExif
  | ChunkTypeGamma
  | ChunkTypeHistogram
  | ChunkTypeICC
  | ChunkTypeTxtUTF8
  | ChunkTypePxSize
  | ChunkTypeSigBits
  | ChunkTypeSugPalette
  | ChunkTypeRGB
  | ChunkTypeStereo
  | ChunkTypeTxtISO8859
  | ChunkTypeTimeChanged
  | ChunkTypeTransparency
  | ChunkTypeTxtCompressed
  deriving DecidableEq, Repr

open chunkType

/-- The Go `getChunkType`: classify a raw 4-byte type code by exact byte
equality against the fixed table, defaulting to `ChunkTypeUnknown`. -/
def getChunkType (ct : List Nat) : chunkType :=
  if ct = ctHdr then ChunkTypeHeader
  else if ct = ctPlte then ChunkTypePalette
  else if ct = ctDat then ChunkTypeData
  else if ct = ctEnd then ChunkTypeEnd
  else if ct = ctBkgd then ChunkTypeBkgdColor
  else if ct = ctChrm then ChunkTypeChromaticity
  else if ct = ctDSig then ChunkTypeDigiSignal
  else if ct = ctExif then ChunkTypeExif
  else if ct = ctGama then ChunkTypeGamma
  else if ct = ctHist then ChunkTypeHistogram
  else if ct = ctIccp then ChunkTypeICC
  else if ct = ctItxt then ChunkTypeTxtUTF8
  else if ct = ctPhys then ChunkTypePxSize
  else if ct = ctSbit then ChunkTypeSigBits
  else if ct = ctSplt then ChunkTypeSugPalette
  else if ct = ctSrgb then ChunkTypeRGB
  else if ct = ctSter then ChunkTypeStereo
  else if ct = ctText then ChunkTypeTxtISO8859
  else if ct = ctTime then ChunkTypeTimeChanged
  else if ct = ctTrns then ChunkTypeTransparency
  else if ct = ctZtxt then ChunkTypeTxtCompressed
  else ChunkTypeUnknown

/-- The Go `Chunk` struct.  The Go field `Type` is called `Ty` here
(`Type` is reserved in Lean); note it stores only the classification,
not the raw 4-byte type code. -/
structure Chunk : Type where
  Length : List Nat
  CRC : List Nat
  Ty : chunkType
  Data : List Nat
  deriving DecidableEq, Repr

/-- The Go `headerChunk` struct (decoded IHDR fields). -/
structure headerChunk : Type where
  Width : Nat
  Height : Nat
  BitDepth : Nat
  ColorType : Nat
  CompressionMethod : Nat
  FilterMethod : Nat
  InterlaceMethod : Nat
  deriving DecidableEq, Repr

/-- The distinct failure sites of the `png` package (each corresponds to one
`errors.New` / `fmt.Errorf` site in the Go source). -/
inductive ParseError : Type where
  | ioFailure
  | notAPng
  | readHeader
  | truncLength
  | truncType
  | truncData
  | truncCRC
  | headerDecodeFailure
  deriving DecidableEq, Repr

/-- `binary.BigEndian.Uint32` on the first four bytes. -/
def beUint32 (b : List Nat) : Nat :=
  b.getD 0 0 * 16777216 + b.getD 1 0 * 65536 + b.getD 2 0 * 256 + b.getD 3 0

/-- Outcome of one `io.ReadFull` call on the modelled stream. -/
inductive ReadResult : Type where
  | ok (bytes : List Nat) (rest : List Nat)
  | eof
  | unexpectedEof
  deriving DecidableEq, Repr

/-- `io.ReadFull(r, buf)` with `len(buf) = n` on a stream `s`: returns the
`n` bytes and the remaining stream when enough bytes remain, `io.EOF` when
the stream is empty and `n > 0`, and `io.ErrUnexpectedEOF` when the stream
is nonempty but holds fewer than `n` bytes. -/
def readFull (n : Nat) (s : List Nat) : ReadResult :=
  if n ≤ s.length then .ok (s.take n) (s.drop n)
  else if s.length = 0 then .eof
  else .unexpectedEof

/-- `bufio.Reader.Peek(n)`: returns the first `n` bytes without advancing
the stream; errors when fewer than `n` bytes are available. -/
def peek (n : Nat) (s : List Nat) : Except ParseError (List Nat) × List Nat :=
  (if s.length < n then .error .ioFailure else .ok (s.take n), s)

/-- The Go `Parser.IsPNG`: peek 8 bytes and compare with the signature;
propagates the peek error.  Second component is the reader state after the
call. -/
def IsPNG (s : List Nat) : Except ParseError Bool × List Nat :=
  match peek 8 s with
  | (.error e, s1) => (.error e, s1)
  | (.ok b, s1) => (.ok (pngHeader == b), s1)

/-- The chunk-reading loop of the Go `Parser.chunks`, with explicit fuel
(the loop consumes at least 12 bytes per iteration, so fuel
`s.length + 1` always suffices; see `chunkLoop`). -/
def chunkLoopF : Nat → List Nat → Except ParseError (List Chunk)
  | 0, _ => .ok []
  | f + 1, s =>
    match readFull 4 s with
    | .eof => .ok []
    | .unexpectedEof => .error .truncLength
    | .ok lenB s1 =>
      match readFull 4 s1 with
      | .eof => .ok []
      | .unexpectedEof => .error .truncType
      | .ok tyB s2 =>
        match readFull (beUint32 lenB) s2 with
        | .eof => .ok []
        | .unexpectedEof => .error .truncData
        | .ok dataB s3 =>
          match readFull 4 s3 with
          | .eof => .ok []
          | .unexpectedEof => .error .truncCRC
          | .ok crcB s4 =>
            Except.map
              (fun rest =>
                { Length := lenB, CRC := crcB,
                  Ty := getChunkType tyB, Data := dataB } :: rest)
              (chunkLoopF f s4)

/-- The chunk-reading loop at its canonical (always sufficient) fuel. -/
def chunkLoop (s : List Nat) : Except ParseError (List Chunk) :=
  chunkLoopF (s.length + 1) s

/-- The Go `Parser.chunks`: check the signature (error propagated, `false`
reported as not-a-PNG), consume the 8 signature bytes, then run the chunk
loop. -/
def chunks (s : List Nat) : Except ParseError (List Chunk) :=
  match IsPNG s with
  | (.error e, _) => .error e
  | (.ok false, _) => .error .notAPng
  | (.ok true, s1) =>
    match readFull 8 s1 with
    | .ok _ rest => chunkLoop rest
    | _ => .error .readHeader

/-- The Go `Parser.Parse`: run `chunks`; on success replace the stored
document, on error return the error and leave the stored document as it
was. -/
def Parse (s : List Nat) (stored : List Chunk) :
    Except ParseError Unit × List Chunk :=
  match chunks s with
  | .error e => (.error e, stored)
  | .ok cs => (.ok (), cs)

/-- The Go `parseHeader`: decode the 13 IHDR data bytes. -/
def parseHeader (data : List Nat) : Except ParseError headerChunk :=
  if data.length ≠ 13 then .error .headerDecodeFailure
  else .ok
    { Width := beUint32 (data.take 4)
      Height := beUint32 ((data.drop 4).take 4)
      BitDepth := data.getD 8 0
      ColorType := data.getD 9 0
      CompressionMethod := data.getD 10 0
      FilterMethod := data.getD 11 0
      InterlaceMethod := data.getD 12 0 }

/-- The `passThrough` map of the Go `StripTags`: membership test. -/
def passThrough (t : chunkType) : Bool :=
  match t with
  | ChunkTypeHeader => true
  | ChunkTypePalette => true
  | ChunkTypeData => true
  | ChunkTypeEnd => true
  | _ => false

/-- The `switch ch.Type` of the Go `StripTags`: canonical type-code bytes
for the four pass-through classifications (`nil` otherwise, as in the Go
`var typeBytes []byte`). -/
def switchTypeBytes (t : chunkType) : List Nat :=
  match t with
  | ChunkTypeHeader => ctHdr
  | ChunkTypePalette => ctPlte
  | ChunkTypeData => ctDat
  | ChunkTypeEnd => ctEnd
  | _ => []

/-- The body of the Go `StripTags` walk: for each chunk in order, emit
length, type bytes, data and CRC when the classification passes through,
nothing otherwise. -/
def stripBody : List Chunk → List Nat
  | [] => []
  | c :: rest =>
    (if passThrough c.Ty then
      c.Length ++ switchTypeBytes c.Ty ++ c.Data ++ c.CRC
    else []) ++ stripBody rest

/-- The Go `Parser.StripTags` (pure content of the produced stream): the
signature followed by the filtered re-serialized chunks. -/
def StripTags (cs : List Chunk) : List Nat :=
  pngHeader ++ stripBody cs

/-- Canonical 4 type-code bytes of each classification of the fixed table
(the inverse direction of the registry); `[]` for `ChunkTypeUnknown`,
which has no code. -/
def typeCodeBytes (t : chunkType) : List Nat :=
  match t with
  | ChunkTypeUnknown => []
  | ChunkTypeHeader => ctHdr
  | ChunkTypePalette => ctPlte
  | ChunkTypeData => ctDat
  | ChunkTypeEnd => ctEnd
  | ChunkTypeBkgdColor => ctBkgd
  | ChunkTypeChromaticity => ctChrm
  | ChunkTypeDigiSignal => ctDSig
  | ChunkTypeExif => ctExif
  | ChunkTypeGamma => ctGama
  | ChunkTypeHistogram => ctHist
  | ChunkTypeICC => ctIccp
  | ChunkTypeTxtUTF8 => ctItxt
  | ChunkTypePxSize => ctPhys
  | ChunkTypeSigBits => ctSbit
  | ChunkTypeSugPalette => ctSplt
  | ChunkTypeRGB => ctSrgb
  | ChunkTypeStereo => ctSter
  | ChunkTypeTxtISO8859 => ctText
  | ChunkTypeTimeChanged => ctTime
  | ChunkTypeTransparency => ctTrns
  | ChunkTypeTxtCompressed => ctZtxt

/-- On-stream serialization of one chunk: 4-byte length, 4-byte type code,
data bytes, 4-byte CRC. -/
def serializeChunk (c : Chunk) : List Nat :=
  c.Length ++ typeCodeBytes c.Ty ++ c.Data ++ c.CRC

/-- On-stream serialization of a chunk sequence. -/
def serializeChunks : List Chunk → List Nat
  | [] => []
  | c :: rest => serializeChunk c ++ serializeChunks rest

/-- A chunk is well formed on-stream when its length and CRC fields hold 4
bytes, its data holds exactly the declared number of bytes, and its
classification is a recognized (serializable) one. -/
def WFChunk (c : Chunk) : Prop :=
  c.Length.length = 4 ∧ c.CRC.length = 4 ∧
    c.Data.length = beUint32 c.Length ∧ c.Ty ≠ ChunkTypeUnknown

instance (c : Chunk) : Decidable (WFChunk c) := by
  unfold WFChunk; infer_instance

/-- The fixed table of the 21 recognized 4-byte type codes. -/
def registryCodes : List (List Nat) :=
  [ctHdr, ctPlte, ctDat, ctEnd, ctBkgd, ctChrm, ctDSig, ctExif, ctGama,
   ctHist, ctIccp, ctItxt, ctPhys, ctSbit, ctSplt, ctSrgb, ctSter, ctText,
   ctTime, ctTrns, ctZtxt]

/-- The four critical classifications, as the specification words them. -/
def isCritical (t : chunkType) : Bool :=
  t = ChunkTypeHeader ∨ t = ChunkTypePalette ∨ t = ChunkTypeData ∨
    t = ChunkTypeEnd

end Png

namespace Png

open chunkType

theorem readFull_ok {n : Nat} {s b r : List Nat}
    (h : readFull n s = .ok b r) :
    b = s.take n ∧ r = s.drop n ∧ n ≤ s.length := by
  unfold readFull at h
  split at h
  · exact ⟨(ReadResult.ok.injEq _ _ _ _).mp h |>.1.symm,
      (ReadResult.ok.injEq _ _ _ _).mp h |>.2.symm, by assumption⟩
  · split at h <;> simp_all

theorem readFull_append {n : Nat} {a r : List Nat}
    (h : a.length = n) : readFull n (a ++ r) = .ok a r := by
  unfold readFull
  rw [if_pos (by simp [List.length_append]; omega)]
  rw [List.take_left' h, List.drop_left' h]

theorem readFull_nil {n : Nat} (h : 0 < n) : readFull n [] = .eof := by
  unfold readFull
  rw [if_neg (by simp; omega), if_pos List.length_nil]

theorem readFull_short {n : Nat} {s : List Nat} (h0 : s ≠ [])
    (h : s.length < n) : readFull n s = .unexpectedEof := by
  unfold readFull
  rw [if_neg (by omega), if_neg (by simpa using h0)]

theorem chunkLoopF_congr :
    ∀ (f1 : Nat) (s : List Nat) (f2 : Nat), s.length < f1 → s.length < f2 →
      chunkLoopF f1 s = chunkLoopF f2 s := by
  intro f1
  induction f1 with
  | zero => intro s f2 h1 _; omega
  | succ f ih =>
    intro s f2 h1 h2
    obtain ⟨g, rfl⟩ : ∃ g, f2 = g + 1 := ⟨f2 - 1, by omega⟩
    show chunkLoopF (f + 1) s = chunkLoopF (g + 1) s
    simp only [chunkLoopF]
    rcases hA : readFull 4 s with ⟨lenB, s1⟩ | _ | _ <;> simp only []
    rcases hB : readFull 4 s1 with ⟨tyB, s2⟩ | _ | _ <;> simp only []
    rcases hC : readFull (beUint32 lenB) s2 with ⟨dataB, s3⟩ | _ | _ <;>
      simp only []
    rcases hD : readFull 4 s3 with ⟨crcB, s4⟩ | _ | _ <;> simp only []
    obtain ⟨-, e1, l1⟩ := readFull_ok hA
    obtain ⟨-, e2, l2⟩ := readFull_ok hB
    obtain ⟨-, e3, l3⟩ := readFull_ok hC
    obtain ⟨-, e4, l4⟩ := readFull_ok hD
    have m1 : s1.length = s.length - 4 := by rw [e1]; exact List.length_drop 4 s
    have m2 : s2.length = s1.length - 4 := by rw [e2]; exact List.length_drop 4 s1
    have m3 : s3.length = s2.length - beUint32 lenB := by
      rw [e3]; exact List.length_drop _ s2
    have m4 : s4.length = s3.length - 4 := by rw [e4]; exact List.length_drop 4 s3
    rw [ih s4 g (by omega) (by omega)]

theorem chunkLoop_nil : chunkLoop [] = .ok [] := rfl

theorem typeCodeBytes_length {t : chunkType} (h : t ≠ ChunkTypeUnknown) :
    (typeCodeBytes t).length = 4 := by
  cases t <;> first | exact absurd rfl h | rfl

theorem getChunkType_typeCodeBytes {t : chunkType} (h : t ≠ ChunkTypeUnknown) :
    getChunkType (typeCodeBytes t) = t := by
  cases t <;> first | exact absurd rfl h | decide

theorem chunkLoopF_cons {c : Chunk} (r : List Nat) (f : Nat) (hWF : WFChunk c) :
    chunkLoopF (f + 1) (serializeChunk c ++ r) =
      Except.map (c :: ·) (chunkLoopF f r) := by
  obtain ⟨hL, hC4, hD, hTy⟩ := hWF
  have hser : serializeChunk c ++ r =
      c.Length ++ (typeCodeBytes c.Ty ++ (c.Data ++ (c.CRC ++ r))) := by
    simp [serializeChunk, List.append_assoc]
  rw [hser]
  simp only [chunkLoopF, readFull_append hL,
    readFull_append (typeCodeBytes_length hTy), readFull_append hD,
    readFull_append hC4, getChunkType_typeCodeBytes hTy]

theorem chunkLoop_cons {c : Chunk} (r : List Nat) (hWF : WFChunk c) :
    chunkLoop (serializeChunk c ++ r) = Except.map (c :: ·) (chunkLoop r) := by
  unfold chunkLoop
  have hlen : (serializeChunk c ++ r).length = 12 + c.Data.length + r.length := by
    simp [serializeChunk, List.length_append, hWF.1, hWF.2.1,
      typeCodeBytes_length hWF.2.2.2]
    omega
  rw [hlen, chunkLoopF_cons r (12 + c.Data.length + r.length) hWF,
    chunkLoopF_congr (12 + c.Data.length + r.length) r (r.length + 1)
      (by omega) (by omega)]

theorem chunkLoop_serialize {cs : List Chunk} (r : List Nat)
    (h : ∀ c ∈ cs, WFChunk c) :
    chunkLoop (serializeChunks cs ++ r) =
      Except.map (cs ++ ·) (chunkLoop r) := by
  induction cs with
  | nil =>
    simp only [serializeChunks, List.nil_append]
    cases hr : chunkLoop r <;> simp [Except.map]
  | cons c rest ih =>
    have hc : WFChunk c := h c (by simp)
    have hrest : ∀ x ∈ rest, WFChunk x := fun x hx => h x (by simp [hx])
    simp only [serializeChunks, List.append_assoc]
    rw [chunkLoop_cons _ hc, ih hrest]
    cases hr : chunkLoop r <;> simp [Except.map]

end Png

namespace Png

open chunkType

theorem chunkLoopF_wf :
    ∀ (f : Nat) (s : List Nat) (cs : List Chunk), chunkLoopF f s = .ok cs →
      ∀ c ∈ cs, c.Length.length = 4 ∧ c.CRC.length = 4 ∧
        c.Data.length = beUint32 c.Length := by
  intro f
  induction f with
  | zero =>
    intro s cs h c hc
    simp only [chunkLoopF, Except.ok.injEq] at h
    subst h
    simp at hc
  | succ f ih =>
    intro s cs h c hc
    simp only [chunkLoopF] at h
    rcases hA : readFull 4 s with ⟨lenB, s1⟩ | _ | _ <;> rw [hA] at h <;>
      simp only [Except.ok.injEq, reduceCtorEq] at h
    rotate_left
    · subst h; simp at hc
    rcases hB : readFull 4 s1 with ⟨tyB, s2⟩ | _ | _ <;> rw [hB] at h <;>
      simp only [Except.ok.injEq, reduceCtorEq] at h
    rotate_left
    · subst h; simp at hc
    rcases hC : readFull (beUint32 lenB) s2 with ⟨dataB, s3⟩ | _ | _ <;>
      rw [hC] at h <;> simp only [Except.ok.injEq, reduceCtorEq] at h
    rotate_left
    · subst h; simp at hc
    rcases hD : readFull 4 s3 with ⟨crcB, s4⟩ | _ | _ <;> rw [hD] at h <;>
      simp only [Except.ok.injEq, reduceCtorEq] at h
    rotate_left
    · subst h; simp at hc
    cases hrec : chunkLoopF f s4 with
    | error e => rw [hrec] at h; simp [Except.map] at h
    | ok rest =>
      rw [hrec] at h
      simp only [Except.map, Except.ok.injEq] at h
      subst h
      rcases List.mem_cons.mp hc with hc | hc
      · subst hc
        obtain ⟨hb, -, hn⟩ := readFull_ok hA
        obtain ⟨db, -, dn⟩ := readFull_ok hC
        obtain ⟨cb, -, cn⟩ := readFull_ok hD
        refine ⟨?_, ?_, ?_⟩
        · show lenB.length = 4
          rw [hb, List.length_take]; omega
        · show crcB.length = 4
          rw [cb, List.length_take]; omega
        · show dataB.length = beUint32 lenB
          rw [db, List.length_take]; omega
      · exact ih s4 rest hrec c hc

theorem chunks_wf {s : List Nat} {cs : List Chunk} (h : chunks s = .ok cs) :
    ∀ c ∈ cs, c.Length.length = 4 ∧ c.CRC.length = 4 ∧
      c.Data.length = beUint32 c.Length := by
  unfold chunks at h
  split at h
  · simp at h
  · simp at h
  · split at h
    · unfold chunkLoop at h
      exact chunkLoopF_wf _ _ _ h
    · simp at h

theorem IsPNG_state (s : List Nat) : (IsPNG s).2 = s := by
  unfold IsPNG peek
  by_cases hc : s.length < 8 <;> simp [hc]

theorem chunks_pngHeader (r : List Nat) : chunks (pngHeader ++ r) = chunkLoop r := by
  have h1 : IsPNG (pngHeader ++ r) = (.ok true, pngHeader ++ r) := by
    unfold IsPNG peek
    rw [if_neg (by simp [pngHeader]),
      List.take_left' (show pngHeader.length = 8 from rfl)]
    simp
  unfold chunks
  simp only [h1, readFull_append (show pngHeader.length = 8 from rfl)]

theorem chunks_serialize {cs : List Chunk} (h : ∀ c ∈ cs, WFChunk c) :
    chunks (pngHeader ++ serializeChunks cs) = .ok cs := by
  rw [chunks_pngHeader]
  have hs := chunkLoop_serialize [] h
  rw [List.append_nil] at hs
  rw [hs, chunkLoop_nil]
  simp [Except.map]

theorem passThrough_ne_unknown {t : chunkType} (h : passThrough t = true) :
    t ≠ ChunkTypeUnknown := by
  cases t <;> simp_all [passThrough]

theorem switchTypeBytes_eq {t : chunkType} (h : passThrough t = true) :
    switchTypeBytes t = typeCodeBytes t := by
  cases t <;> simp_all [passThrough, switchTypeBytes, typeCodeBytes]

theorem passThrough_eq_isCritical (t : chunkType) :
    passThrough t = isCritical t := by
  cases t <;> decide

theorem stripBody_eq (cs : List Chunk) :
    stripBody cs = serializeChunks (cs.filter fun c => passThrough c.Ty) := by
  induction cs with
  | nil => rfl
  | cons c rest ih =>
    by_cases h : passThrough c.Ty
    · simp [stripBody, List.filter_cons, h, serializeChunks,
        serializeChunk, ih, switchTypeBytes_eq h]
    · simp [stripBody, List.filter_cons, h, ih]

theorem list_len4 {l : List Nat} (h : l.length = 4) :
    ∃ a b c d, l = [a, b, c, d] := by
  rcases l with _ | ⟨a, _ | ⟨b, _ | ⟨c, _ | ⟨d, t⟩⟩⟩⟩ <;> simp_all

end Png

namespace Png

open chunkType

/-- C1: For every parsed document, the strip operation produces the fixed
8-byte PNG signature followed by exactly those chunks whose classification
is Header, Palette, ImageData or End, in their original relative order,
each serialized as 4-byte length, 4-byte canonical type code, data bytes
and the original 4-byte CRC unchanged; every ancillary or
unknown-classified chunk, payload included, is omitted entirely. -/
theorem StripTags_spec {s : List Nat} {cs : List Chunk}
    (h : chunks s = .ok cs) :
    StripTags cs =
      pngHeader ++ serializeChunks (cs.filter fun c => isCritical c.Ty) ∧
    ∀ c ∈ cs, c.Length.length = 4 ∧ c.CRC.length = 4 := by
  refine ⟨?_, fun c hc => ⟨(chunks_wf h c hc).1, (chunks_wf h c hc).2.1⟩⟩
  show pngHeader ++ stripBody cs = _
  rw [stripBody_eq]
  have hp : (fun c : Chunk => passThrough c.Ty) =
      fun c : Chunk => isCritical c.Ty :=
    funext fun c => passThrough_eq_isCritical c.Ty
  rw [hp]

/-- Witness for C1 at the specification's example document
Header, tEXt "hello", IDAT, IEND: the tEXt chunk and its 5-byte payload
are dropped, everything else is passed through byte for byte. -/
theorem StripTags_spec_witness :
    StripTags
      [⟨[0,0,0,13],[1,2,3,4],ChunkTypeHeader,[0,0,0,16,0,0,0,32,8,6,0,0,0]⟩,
       ⟨[0,0,0,5],[5,6,7,8],ChunkTypeTxtISO8859,[104,101,108,108,111]⟩,
       ⟨[0,0,0,2],[10,11,12,13],ChunkTypeData,[9,9]⟩,
       ⟨[0,0,0,0],[14,15,16,17],ChunkTypeEnd,[]⟩] =
      pngHeader ++ serializeChunks (List.filter (fun c => isCritical c.Ty)
      [⟨[0,0,0,13],[1,2,3,4],ChunkTypeHeader,[0,0,0,16,0,0,0,32,8,6,0,0,0]⟩,
       ⟨[0,0,0,5],[5,6,7,8],ChunkTypeTxtISO8859,[104,101,108,108,111]⟩,
       ⟨[0,0,0,2],[10,11,12,13],ChunkTypeData,[9,9]⟩,
       ⟨[0,0,0,0],[14,15,16,17],ChunkTypeEnd,[]⟩]) ∧
    StripTags
      [⟨[0,0,0,13],[1,2,3,4],ChunkTypeHeader,[0,0,0,16,0,0,0,32,8,6,0,0,0]⟩,
       ⟨[0,0,0,5],[5,6,7,8],ChunkTypeTxtISO8859,[104,101,108,108,111]⟩,
       ⟨[0,0,0,2],[10,11,12,13],ChunkTypeData,[9,9]⟩,
       ⟨[0,0,0,0],[14,15,16,17],ChunkTypeEnd,[]⟩] =
      [137,80,78,71,13,10,26,10,
       0,0,0,13, 73,72,68,82, 0,0,0,16,0,0,0,32,8,6,0,0,0, 1,2,3,4,
       0,0,0,2, 73,68,65,84, 9,9, 10,11,12,13,
       0,0,0,0, 73,69,78,68, 14,15,16,17] :=
  ⟨(@StripTags_spec ([137,80,78,71,13,10,26,10] ++
      ([0,0,0,13] ++ [73,72,68,82] ++ [0,0,0,16,0,0,0,32,8,6,0,0,0] ++
        [1,2,3,4]) ++
      ([0,0,0,5] ++ [116,69,88,116] ++ [104,101,108,108,111] ++ [5,6,7,8]) ++
      ([0,0,0,2] ++ [73,68,65,84] ++ [9,9] ++ [10,11,12,13]) ++
      ([0,0,0,0] ++ [73,69,78,68] ++ [14,15,16,17]))
      [⟨[0,0,0,13],[1,2,3,4],ChunkTypeHeader,[0,0,0,16,0,0,0,32,8,6,0,0,0]⟩,
       ⟨[0,0,0,5],[5,6,7,8],ChunkTypeTxtISO8859,[104,101,108,108,111]⟩,
       ⟨[0,0,0,2],[10,11,12,13],ChunkTypeData,[9,9]⟩,
       ⟨[0,0,0,0],[14,15,16,17],ChunkTypeEnd,[]⟩] (by rfl)).1,
   rfl⟩

/-- C2, counterexample: a parsed chunk retains only the classification, not
the raw 4-byte type code, so parsing is not injective: the two valid
streams below differ only in an unrecognized type code (ABCD versus BCDE)
yet parse to the identical document.  Hence re-emitting the parsed chunks
cannot reproduce every original input byte-for-byte. -/
theorem chunks_not_injective :
    chunks [137,80,78,71,13,10,26,10, 0,0,0,0, 65,66,67,68, 1,2,3,4] =
      chunks [137,80,78,71,13,10,26,10, 0,0,0,0, 66,67,68,69, 1,2,3,4] ∧
    [137,80,78,71,13,10,26,10, 0,0,0,0, 65,66,67,68, 1,2,3,4] ≠
      [137,80,78,71,13,10,26,10, 0,0,0,0, 66,67,68,69, 1,2,3,4] :=
  ⟨rfl, by decide⟩

/-- C2, amended: for every valid PNG stream all of whose chunks carry
recognized type codes (equivalently, every stream of the form signature
followed by serialized well-formed chunks), parsing recovers exactly those
chunks, so re-emitting each parsed chunk as 4-byte length, the canonical
4-byte code of its classification, data bytes and CRC after the signature
reproduces the original input exactly. -/
theorem parse_reemit_roundtrip {cs : List Chunk}
    (h : ∀ c ∈ cs, WFChunk c) :
    chunks (pngHeader ++ serializeChunks cs) = .ok cs :=
  chunks_serialize h

/-- Witness for C2's amended round-trip at a one-chunk IDAT document. -/
theorem parse_reemit_roundtrip_witness :
    chunks (pngHeader ++ serializeChunks
      [⟨[0,0,0,2],[10,11,12,13],ChunkTypeData,[9,9]⟩]) =
      .ok [⟨[0,0,0,2],[10,11,12,13],ChunkTypeData,[9,9]⟩] :=
  parse_reemit_roundtrip (by decide)

/-- C3, counterexample: the final chunk declares 2 data bytes but only one
remains in the stream; `chunks` returns the data-read error (Go
`io.ReadFull` yields `ErrUnexpectedEOF`, not `io.EOF`, on a partial read),
it does not terminate silently, and no partial data is captured. -/
theorem truncData_counterexample :
    chunks [137,80,78,71,13,10,26,10, 0,0,0,2, 73,68,65,84, 171] =
      .error .truncData := rfl

/-- C3, amended: when the final chunk's declared length exceeds the bytes
remaining after its type code, parse terminates the loop without error,
returning exactly the previously completed chunks and discarding the
incomplete chunk, only when zero data bytes remain; when at least one but
fewer than the declared bytes remain it instead fails with the data-read
error, and in neither case are partial data bytes captured into a returned
chunk. -/
theorem short_data_boundary {cs : List Chunk} {lenB tyB t : List Nat}
    (hcs : ∀ c ∈ cs, WFChunk c) (hlen : lenB.length = 4)
    (hty : tyB.length = 4) (ht : t.length < beUint32 lenB) :
    (t = [] →
      chunks (pngHeader ++ (serializeChunks cs ++ (lenB ++ (tyB ++ t)))) =
        .ok cs) ∧
    (t ≠ [] →
      chunks (pngHeader ++ (serializeChunks cs ++ (lenB ++ (tyB ++ t)))) =
        .error .truncData) := by
  have hloop : chunkLoop (lenB ++ (tyB ++ t)) =
      if t = [] then .ok [] else .error .truncData := by
    unfold chunkLoop
    have hlen2 : (lenB ++ (tyB ++ t)).length = 4 + (4 + t.length) := by
      simp [hlen, hty]
    rw [hlen2]
    by_cases h0 : t = []
    · subst h0
      simp only [chunkLoopF, readFull_append hlen, readFull_append hty,
        readFull_nil (show 0 < beUint32 lenB by omega)]
      simp
    · simp only [chunkLoopF, readFull_append hlen, readFull_append hty,
        readFull_short h0 ht, if_neg h0]
  rw [chunks_pngHeader, chunkLoop_serialize _ hcs, hloop]
  constructor
  · intro h0; rw [if_pos h0]; simp [Except.map]
  · intro h0; rw [if_neg h0]; simp [Except.map]

/-- Witness for C3's amended boundary behavior: a declared 2-byte IDAT
payload with a single byte remaining makes the parse fail. -/
theorem short_data_boundary_witness :
    chunks (pngHeader ++ (serializeChunks [] ++
      ([0,0,0,2] ++ ([73,68,65,84] ++ [171])))) = .error .truncData :=
  (@short_data_boundary [] [0,0,0,2] [73,68,65,84] [171]
    (by simp) rfl rfl (by decide)).2 (by decide)

/-- C4, counterexample: a stream ending immediately after a 4-byte length
field (zero bytes remaining for the type code) is accepted: the loop
breaks on `io.EOF` and `chunks` succeeds with the chunks read so far,
rather than failing with a truncated-chunk error as the claim states. -/
theorem lone_length_accepted :
    chunks [137,80,78,71,13,10,26,10, 0,0,0,5] = .ok [] := rfl

/-- C4, amended: after a 4-byte chunk length is read, parse fails with the
type-read (truncated-chunk) error only when between one and three bytes
remain for the type code; when zero bytes remain the loop terminates
successfully, returning the chunks accumulated so far. -/
theorem short_type_boundary {cs : List Chunk} {lenB t : List Nat}
    (hcs : ∀ c ∈ cs, WFChunk c) (hlen : lenB.length = 4)
    (ht : t.length < 4) :
    (t = [] →
      chunks (pngHeader ++ (serializeChunks cs ++ (lenB ++ t))) = .ok cs) ∧
    (t ≠ [] →
      chunks (pngHeader ++ (serializeChunks cs ++ (lenB ++ t))) =
        .error .truncType) := by
  have hloop : chunkLoop (lenB ++ t) =
      if t = [] then .ok [] else .error .truncType := by
    unfold chunkLoop
    have hlen2 : (lenB ++ t).length = 4 + t.length := by simp [hlen]
    rw [hlen2]
    by_cases h0 : t = []
    · subst h0
      simp only [chunkLoopF, readFull_append hlen,
        readFull_nil (show (0:Nat) < 4 by omega)]
      simp
    · simp only [chunkLoopF, readFull_append hlen,
        readFull_short h0 ht, if_neg h0]
  rw [chunks_pngHeader, chunkLoop_serialize _ hcs, hloop]
  constructor
  · intro h0; rw [if_pos h0]; simp [Except.map]
  · intro h0; rw [if_neg h0]; simp [Except.map]

/-- Witness for C4's amended boundary behavior: two bytes where the type
code should start make the parse fail with the type-read error. -/
theorem short_type_boundary_witness :
    chunks (pngHeader ++ (serializeChunks [] ++ ([0,0,0,5] ++ [7,7]))) =
      .error .truncType :=
  (@short_type_boundary [] [0,0,0,5] [7,7]
    (by simp) rfl (by decide)).2 (by decide)

/-- C5: strip is idempotent: for every parsed document, parsing the byte
stream produced by `StripTags` succeeds, yields exactly the critical
chunks, and stripping that resulting document yields a byte stream
identical to the first strip output. -/
theorem StripTags_idempotent {s : List Nat} {cs : List Chunk}
    (h : chunks s = .ok cs) :
    chunks (StripTags cs) = .ok (cs.filter fun c => passThrough c.Ty) ∧
    StripTags (cs.filter fun c => passThrough c.Ty) = StripTags cs := by
  have hwf : ∀ c ∈ cs.filter (fun c => passThrough c.Ty), WFChunk c := by
    intro c hc
    obtain ⟨hmem, hpass⟩ := List.mem_filter.mp hc
    obtain ⟨l4, c4, d4⟩ := chunks_wf h c hmem
    exact ⟨l4, c4, d4, passThrough_ne_unknown hpass⟩
  constructor
  · show chunks (pngHeader ++ stripBody cs) = _
    rw [stripBody_eq]
    exact chunks_serialize hwf
  · show pngHeader ++ stripBody _ = pngHeader ++ stripBody cs
    rw [stripBody_eq, stripBody_eq]
    simp [List.filter_filter]

/-- Witness for C5 at a one-chunk IEND document. -/
theorem StripTags_idempotent_witness :
    chunks (StripTags [⟨[0,0,0,0],[14,15,16,17],ChunkTypeEnd,[]⟩]) =
      .ok (List.filter (fun c => passThrough c.Ty)
        [⟨[0,0,0,0],[14,15,16,17],ChunkTypeEnd,[]⟩]) :=
  (@StripTags_idempotent (pngHeader ++
    ([0,0,0,0] ++ ([73,69,78,68] ++ [14,15,16,17])))
    [⟨[0,0,0,0],[14,15,16,17],ChunkTypeEnd,[]⟩] (by rfl)).1

/-- C6: classification is a pure total function of the 4-byte code: each of
the 21 codes of the fixed table maps to its named classification, and
every code not in the table maps to Unknown. -/
theorem classify_total_spec :
    (getChunkType ctHdr = ChunkTypeHeader ∧
     getChunkType ctPlte = ChunkTypePalette ∧
     getChunkType ctDat = ChunkTypeData ∧
     getChunkType ctEnd = ChunkTypeEnd ∧
     getChunkType ctBkgd = ChunkTypeBkgdColor ∧
     getChunkType ctChrm = ChunkTypeChromaticity ∧
     getChunkType ctDSig = ChunkTypeDigiSignal ∧
     getChunkType ctExif = ChunkTypeExif ∧
     getChunkType ctGama = ChunkTypeGamma ∧
     getChunkType ctHist = ChunkTypeHistogram ∧
     getChunkType ctIccp = ChunkTypeICC ∧
     getChunkType ctItxt = ChunkTypeTxtUTF8 ∧
     getChunkType ctPhys = ChunkTypePxSize ∧
     getChunkType ctSbit = ChunkTypeSigBits ∧
     getChunkType ctSplt = ChunkTypeSugPalette ∧
     getChunkType ctSrgb = ChunkTypeRGB ∧
     getChunkType ctSter = ChunkTypeStereo ∧
     getChunkType ctText = ChunkTypeTxtISO8859 ∧
     getChunkType ctTime = ChunkTypeTimeChanged ∧
     getChunkType ctTrns = ChunkTypeTransparency ∧
     getChunkType ctZtxt = ChunkTypeTxtCompressed) ∧
    ∀ ct : List Nat, ct ∉ registryCodes →
      getChunkType ct = ChunkTypeUnknown := by
  refine ⟨by decide, ?_⟩
  intro ct h
  simp only [registryCodes, List.mem_cons, List.not_mem_nil, or_false] at h
  push_neg at h
  obtain ⟨h1, h2, h3, h4, h5, h6, h7, h8, h9, h10, h11, h12, h13, h14, h15,
    h16, h17, h18, h19, h20, h21⟩ := h
  unfold getChunkType
  rw [if_neg h1, if_neg h2, if_neg h3, if_neg h4, if_neg h5, if_neg h6,
    if_neg h7, if_neg h8, if_neg h9, if_neg h10, if_neg h11, if_neg h12,
    if_neg h13, if_neg h14, if_neg h15, if_neg h16, if_neg h17, if_neg h18,
    if_neg h19, if_neg h20, if_neg h21]

/-- Witness for C6 at the unrecognized code JJJJ. -/
theorem classify_total_spec_witness :
    getChunkType [74,74,74,74] = ChunkTypeUnknown :=
  classify_total_spec.2 [74,74,74,74] (by decide)

/-- C7: header-field decoding succeeds exactly on 13-byte payloads, and on
a payload made of 4 width bytes, 4 height bytes and the five single bytes,
it returns the big-endian `uint32` of the width and height bytes and those
five bytes as bit depth, color type, compression method, filter method and
interlace method. -/
theorem parseHeader_spec :
    (∀ d : List Nat, (∃ hdr, parseHeader d = .ok hdr) ↔ d.length = 13) ∧
    (∀ w4 h4 : List Nat, ∀ bd ct cm fm im : Nat,
      w4.length = 4 → h4.length = 4 →
      parseHeader (w4 ++ h4 ++ [bd, ct, cm, fm, im]) =
        .ok ⟨beUint32 w4, beUint32 h4, bd, ct, cm, fm, im⟩) := by
  constructor
  · intro d
    unfold parseHeader
    by_cases h : d.length = 13
    · simp [h]
    · simp [h]
  · intro w4 h4 bd ct cm fm im hw hh
    obtain ⟨a, b, c, d, rfl⟩ := list_len4 hw
    obtain ⟨e, f, g, k, rfl⟩ := list_len4 hh
    simp [parseHeader, beUint32]

/-- Witness for C7 at the specification's example payload: width 16,
height 32, bit depth 8, color type 6. -/
theorem parseHeader_spec_witness :
    parseHeader [0,0,0,16, 0,0,0,32, 8, 6, 0, 0, 0] =
      .ok ⟨16, 32, 8, 6, 0, 0, 0⟩ := by
  have h := parseHeader_spec.2 [0,0,0,16] [0,0,0,32] 8 6 0 0 0 rfl rfl
  simpa [beUint32] using h

/-- C8: the signature check never consumes input: the reader state after
`IsPNG` is the original stream, a second call returns the same result, and
a parse performed afterward still observes the full original byte stream
including the 8 signature bytes. -/
theorem IsPNG_frame (s : List Nat) :
    (IsPNG s).2 = s ∧ IsPNG ((IsPNG s).2) = IsPNG s ∧
      chunks ((IsPNG s).2) = chunks s :=
  ⟨IsPNG_state s, by rw [IsPNG_state s], by rw [IsPNG_state s]⟩

/-- C9: for every input of at least 8 bytes whose first 8 bytes differ
from the PNG magic sequence, parsing fails with the not-a-PNG error and
returns no chunks. -/
theorem notAPng_spec {s : List Nat} (h8 : 8 ≤ s.length)
    (hneq : s.take 8 ≠ pngHeader) :
    chunks s = .error .notAPng := by
  have h1 : IsPNG s = (.ok false, s) := by
    unfold IsPNG peek
    rw [if_neg (by omega)]
    show (Except.ok (ε := ParseError) (pngHeader == s.take 8), s) =
      (.ok false, s)
    rw [beq_eq_false_iff_ne.mpr (fun hx => hneq hx.symm)]
  unfold chunks
  simp only [h1]

/-- Witness for C9 at an 8-byte all-zero input. -/
theorem notAPng_spec_witness :
    chunks [0,0,0,0,0,0,0,0] = .error .notAPng :=
  notAPng_spec (by decide) (by decide)

/-- C10: Parse is atomic with respect to the stored document: if it
returns an error the stored chunk sequence is unchanged, and the sequence
is replaced exactly when Parse succeeds. -/
theorem Parse_atomic (s : List Nat) (stored : List Chunk) :
    (∀ e : ParseError, (Parse s stored).1 = .error e →
      (Parse s stored).2 = stored) ∧
    (∀ cs : List Chunk, chunks s = .ok cs →
      (Parse s stored).1 = .ok () ∧ (Parse s stored).2 = cs) := by
  constructor
  · intro e he
    unfold Parse at he ⊢
    cases h : chunks s <;> simp [h] at he ⊢
  · intro cs hcs
    unfold Parse
    simp [hcs]

/-- Witness for C10: parsing an empty input fails (the signature peek
fails), and the previously stored one-chunk document is preserved. -/
theorem Parse_atomic_witness :
    (Parse [] [⟨[0,0,0,0],[1,2,3,4],ChunkTypeEnd,[]⟩]).2 =
      [⟨[0,0,0,0],[1,2,3,4],ChunkTypeEnd,[]⟩] :=
  (Parse_atomic [] [⟨[0,0,0,0],[1,2,3,4],ChunkTypeEnd,[]⟩]).1
    .ioFailure rfl

end Png
